import Mathlib

/-!
Shallow embedding of `misosoundbank.py` (miso-sound/miso-sound-data).

Sample buffers are lists of rationals (idealised floats), sampling rates are
rationals.  External collaborators (librosa decoding/resampling, pandas table
reading, the ffmpeg normalizer, the float `log10`/`10 ** x` routines) are
passed as function parameters.  Python / numpy / pydub primitives that the
source relies on (`int()`, `np.rint`, slice semantics, `np.linspace`,
`audioop` gain application) are embedded explicitly below.
-/

namespace MisoSoundBank

/-- Python `int()` on a real value: truncation toward zero. -/
def pyInt (q : ℚ) : ℤ :=
  if 0 ≤ q then ⌊q⌋ else ⌈q⌉

/-- numpy `np.rint`: round to nearest integer, ties to even.  The source wraps
it in `int(...)`, which is the identity on an integral value, so the
composition `int(np.rint(x))` is embedded as `npRint x`. -/
def npRint (q : ℚ) : ℤ :=
  let f := ⌊q⌋
  let r := q - f
  if r < 1/2 then f
  else if 1/2 < r then f + 1
  else if 2 ∣ f then f else f + 1

/-- Python slice-index normalisation for a sequence of length `n`: negative
indices count from the end and everything is clamped into `[0, n]`. -/
def pyNormIdx (n : ℕ) (i : ℤ) : ℕ :=
  if i < 0 then ((n : ℤ) + i).toNat else min i.toNat n

/-- Python slice `y[s:e]` (empty when the normalised end does not exceed the
normalised start, exactly as in Python). -/
def pySlice (y : List ℚ) (s e : ℤ) : List ℚ :=
  let s' := pyNormIdx y.length s
  let e' := pyNormIdx y.length e
  (y.drop s').take (e' - s')

/-- Python slice assignment `y[s:e] = vals` where `vals` has the slice's
length: the elements between the normalised bounds are replaced. -/
def pySetSlice (y : List ℚ) (s e : ℤ) (vals : List ℚ) : List ℚ :=
  let s' := pyNormIdx y.length s
  let e' := pyNormIdx y.length e
  (y.take s') ++ vals ++ y.drop (max s' e')

/-- numpy `np.linspace a b n`: `n` evenly spaced points from `a` to `b`
inclusive (`[a]` when `n = 1`, `[]` when `n = 0`). -/
def linspace (a b : ℚ) (n : ℕ) : List ℚ :=
  if n = 0 then []
  else if n = 1 then [a]
  else (List.range n).map (fun i => a + (b - a) * i / (n - 1))

/-- Two's-complement wrap of an integer into the `int16` range, the effect of
numpy's C-style cast to `np.int16` on an in-range or wrapped value. -/
def toInt16 (n : ℤ) : ℤ :=
  (n + 32768) % 65536 - 32768

/-- Fade length in samples, from `apply_fade`: `length = int(duration * sr)`
(Python `int()`, i.e. truncation toward zero). -/
def fade_length (duration sr : ℚ) : ℤ :=
  pyInt (duration * sr)

/-- One iteration of the fade loop in `apply_fade`: pick the window for the
given edge, build `fade_curve = np.linspace(1.0, 0.0, length)` (the source
uses this descending curve for BOTH edges) and multiply the window by it.
numpy raises on a shape mismatch unless one side has length 1
(broadcasting); a raised error is modelled as `none`. -/
def fade_step (y : List ℚ) (length : ℤ) (io : String) : Option (List ℚ) :=
  let se : ℤ × ℤ :=
    if io = "out" then ((y.length : ℤ) - length, (y.length : ℤ))
    else (0, length)
  let curve := linspace 1 0 length.toNat
  let sl := pySlice y se.1 se.2
  if sl.length = curve.length then
    some (pySetSlice y se.1 se.2 (List.zipWith (fun a b => a * b) sl curve))
  else if curve.length = 1 then
    some (pySetSlice y se.1 se.2 (sl.map (fun a => a * curve.headD 1)))
  else none

/-- `apply_fade(y, sr, duration, inout)` from the source: no-op unless
`duration > 0`; otherwise apply `fade_step` for each requested edge
(`"both"` expands to `["in", "out"]`). -/
def apply_fade (y : List ℚ) (sr duration : ℚ) (inout : String) :
    Option (List ℚ) :=
  if 0 < duration then
    let length := fade_length duration sr
    let ios := if inout = "both" then ["in", "out"] else [inout]
    ios.foldlM (fun acc io => fade_step acc length io) y
  else some y

/-- Extended value: an IEEE-style number that is either finite (an exact
rational, idealising the float), an infinity, or NaN.  Used for the dB
arithmetic of the pydub gain-shift strategy, where the all-silence loudness
is negative infinity. -/
inductive XQ where
  | nan : XQ
  | posInf : XQ
  | negInf : XQ
  | fin : ℚ → XQ
deriving DecidableEq

/-- IEEE subtraction on extended values (only the combinations arising in
`match_target_amplitude_pydub` matter; the table is the IEEE one). -/
def XQ.sub : XQ → XQ → XQ
  | XQ.nan, _ => XQ.nan
  | _, XQ.nan => XQ.nan
  | XQ.posInf, XQ.posInf => XQ.nan
  | XQ.posInf, _ => XQ.posInf
  | XQ.negInf, XQ.negInf => XQ.nan
  | XQ.negInf, _ => XQ.negInf
  | XQ.fin _, XQ.posInf => XQ.negInf
  | XQ.fin _, XQ.negInf => XQ.posInf
  | XQ.fin a, XQ.fin b => XQ.fin (a - b)

/-- A pydub `AudioSegment` restricted to what the source uses: mono 16-bit
samples plus a frame rate. -/
structure PSeg where
  samples : List ℤ
  frameRate : ℚ
deriving DecidableEq

/-- `librosa_to_pydub(y, sr)` from the source, on the float32 branch that the
pipeline always takes: each float sample becomes
`np.int16(x * (1 << 15))` (C-style truncation toward zero, then the int16
cast, which wraps). -/
def librosa_to_pydub (y : List ℚ) (sr : ℚ) : PSeg :=
  ⟨y.map (fun x => toInt16 (pyInt (x * 32768))), sr⟩

/-- `pydub_to_librosa(audio_segment)` from the source, mono case: samples as
float32 divided by `np.iinfo(int16).max = 32767`, paired with the frame
rate. -/
def pydub_to_librosa (s : PSeg) : List ℚ × ℚ :=
  (s.samples.map (fun (v : ℤ) => (v : ℚ) / 32767), s.frameRate)

/-- Modelled from pydub's collaborator semantics: CPython `audioop.rms` —
the integer square root of the mean of the squared samples (the C code
computes the mean in double precision; the values agree at the silence
boundary the spec cares about).  Zero for an empty buffer. -/
def audioop_rms (samples : List ℤ) : ℕ :=
  Nat.sqrt ((samples.map (fun s => s * s)).sum.toNat / samples.length)

/-- Modelled from pydub's collaborator semantics: `AudioSegment.dBFS` is
`ratio_to_db(rms / max_possible_amplitude)`, which is negative infinity when
`rms = 0` and `20 * log10(ratio)` otherwise.  The float `log10` routine is
passed in as `lg`. -/
def pydub_dBFS (lg : ℚ → ℚ) (s : PSeg) : XQ :=
  let r := audioop_rms s.samples
  if r = 0 then XQ.negInf else XQ.fin (20 * lg ((r : ℚ) / 32768))

/-- Modelled from pydub's collaborator semantics: `db_to_float(db)` is
`10 ** (db / 20)`; on extended values `10 ** +inf = +inf` and
`10 ** -inf = 0`.  The float power routine (returning the positive value
`10 ** (d / 20)` for finite `d`) is passed in as `pw`. -/
def db_to_float (pw : ℚ → ℚ) : XQ → XQ
  | XQ.nan => XQ.nan
  | XQ.posInf => XQ.posInf
  | XQ.negInf => XQ.fin 0
  | XQ.fin d => XQ.fin (pw d)

/-- Modelled from CPython `audioop`'s `fbound` for 16-bit width: clamp to
`(-32767, 32767]` boundaries (values below `minval + 1` go to `-32768`),
then floor. -/
def fbound (v : ℚ) : ℤ :=
  if 32767 < v then 32767 else if v < -32767 then -32768 else ⌊v⌋

/-- Modelled from CPython `audioop.mul` on one 16-bit sample: multiply by the
float factor and bound.  `0 * inf` is NaN and the subsequent int cast is
undefined behaviour; that outcome is `none`. -/
def mul_sample (s : ℤ) (factor : XQ) : Option ℤ :=
  match factor with
  | XQ.nan => none
  | XQ.posInf => if s = 0 then none else if 0 < s then some 32767 else some (-32768)
  | XQ.negInf => if s = 0 then none else if 0 < s then some (-32768) else some 32767
  | XQ.fin q => some (fbound (s * q))

/-- Modelled from pydub's collaborator semantics: `AudioSegment.apply_gain`
multiplies every sample by `db_to_float(change)` via `audioop.mul`. -/
def apply_gain (pw : ℚ → ℚ) (s : PSeg) (change : XQ) : Option PSeg :=
  (s.samples.mapM (fun v => mul_sample v (db_to_float pw change))).map
    (fun l => ⟨l, s.frameRate⟩)

/-- `match_target_amplitude_pydub(y, sr, level)` from the source: convert to
pydub, compute `change_in_dBFS = level - sound.dBFS` and apply that gain,
then convert back.  There is no special case for silence, so the result is
`none` (NaN samples) when the gain arithmetic is undefined. -/
def match_target_amplitude_pydub (lg pw : ℚ → ℚ) (y : List ℚ) (sr level : ℚ) :
    Option (List ℚ) :=
  let sound := librosa_to_pydub y sr
  let change := XQ.sub (XQ.fin level) (pydub_dBFS lg sound)
  (apply_gain pw sound change).map (fun s => (pydub_to_librosa s).1)

/-- `normalize(y, sr, level, method)` from the source.  The
`ffmpeg_normalize` strategy shells out to an external tool, passed in as
`ffmpegFn`; any other non-`None` method falls through to
`match_target_amplitude_pydub` with its default level `-18` (the source
forwards only `**kwargs`, which the pipeline leaves empty). -/
def normalize (ffmpegFn : List ℚ → ℚ → ℚ → List ℚ) (lg pw : ℚ → ℚ)
    (y : List ℚ) (sr : ℚ) (level : Option ℚ) (method : Option String) :
    Option (List ℚ) :=
  match level, method with
  | some l, some m =>
      if m = "ffmpeg_normalize" then some (ffmpegFn y sr l)
      else match_target_amplitude_pydub lg pw y sr (-18)
  | _, _ => some y

/-- The polymorphic `y` argument of `segment_audio`: an already-decoded
buffer or a path/URL string. -/
inductive Src where
  | buf : List ℚ → Src
  | file : String → Src
deriving DecidableEq

/-- The polymorphic `segment` argument of `segment_audio`: `None`, an
explicit `(start, stop)` pair, or a path to a boundary table. -/
inductive Seg where
  | nil : Seg
  | pair : ℚ → ℚ → Seg
  | path : String → Seg
deriving DecidableEq

/-- Type of the `librosa.load` collaborator: path, requested rate (`None`
keeps the native rate), offset, optional duration; returns the decoded
buffer and its rate. -/
def LoadFn : Type :=
  String → Option ℚ → ℚ → Option ℚ → List ℚ × ℚ

/-- `segment_audio(y, sr, segment)` from the source.  `rt` is the
`pd.read_table` collaborator returning the first data row of a table; a
string segment is replaced by that row's first two columns (fewer than two
columns raises, modelled as `none`).  A buffer source is sliced as
`y[int(np.rint(sr * offset)) : int(np.rint(sr * (duration - offset)))]`
(end index from `duration - offset`, exactly as the source computes it);
a file source is decoded by `ld` at the offset/duration.  Using a buffer
source with `sr = None` raises (arithmetic on `None`), modelled as
`none`. -/
def segment_audio (rt : String → List ℚ) (ld : LoadFn)
    (y : Src) (sr : Option ℚ) (seg : Seg) :
    Option (List ℚ × Option ℚ) :=
  let resolved : Option (Option (ℚ × ℚ)) :=
    match seg with
    | Seg.path p =>
        match (rt p).take 2 with
        | [a, b] => some (some (a, b))
        | _ => none
    | Seg.pair a b => some (some (a, b))
    | Seg.nil => some none
  match resolved with
  | none => none
  | some seg' =>
    let od : ℚ × Option ℚ :=
      match seg' with
      | some (a, b) => (a, some (b - a))
      | none => (0, none)
    match y with
    | Src.file p =>
        let r := ld p sr od.1 od.2
        some (r.1, some r.2)
    | Src.buf b =>
        match sr with
        | none => none
        | some s =>
            match od.2 with
            | none => some (pySlice b (npRint (s * od.1)) (b.length : ℤ), some s)
            | some d =>
                some (pySlice b (npRint (s * od.1)) (npRint (s * (d - od.1))), some s)

/-- `process_audio(y, sr, target_sr, norm_level, fade_duration)` from the
source: resample (via the `librosa.resample` collaborator `resampleFn`) only
when `sr != target_sr`, then normalize (with the default
`method="ffmpeg_normalize"`), then fade with the default edge `"both"`,
returning the buffer with the post-resample rate. -/
def process_audio (resampleFn : List ℚ → ℚ → ℚ → List ℚ)
    (ffmpegFn : List ℚ → ℚ → ℚ → List ℚ) (lg pw : ℚ → ℚ)
    (y : List ℚ) (sr target_sr : ℚ) (norm_level : Option ℚ)
    (fade_duration : ℚ) : Option (List ℚ × ℚ) :=
  let p := if sr ≠ target_sr then (resampleFn y sr target_sr, target_sr) else (y, sr)
  (normalize ffmpegFn lg pw p.1 p.2 norm_level (some "ffmpeg_normalize")).bind
    (fun yn => (apply_fade yn p.2 fade_duration "both").map (fun yf => (yf, p.2)))

/-- The per-identifier path bundle produced by `MisoSoundLoader.get_paths`
(whose network resolution is a collaborator): original-audio source URL,
original-audio output directory, boundary-table source, processed-audio
output file. -/
structure AudioPaths where
  originalIn : String
  originalOutDir : String
  segmentIn : String
  processedOut : String
deriving DecidableEq

/-- Observable effects of a `MisoSoundLoader.get_audio` run: files persisted
by `wget.download` (the original audio), files persisted by `save_audio`
(the processed audio), and the accumulated `audio` summary records
`(id, sig, sampling_rate)`. -/
structure RunState where
  savedOriginals : List String
  savedProcessed : List String
  returned : List (String × Src × Option ℚ)

/-- One iteration of the loop in `MisoSoundLoader.get_audio`: fetch (or
stream-decode) the original, segment when a boundary table is available
(otherwise mark the item as not processable), then process and save.  An
uncaught exception (modelled `none`) aborts the whole run, exactly as in
the source. -/
def get_audio_item (download : String → String → String)
    (loadAudio : String → List ℚ × ℚ) (isAvail : String → Bool)
    (rt : String → List ℚ) (ld : LoadFn)
    (processFunc : Option (List ℚ → Option ℚ → List ℚ × Option ℚ))
    (saveOriginal saveProcessed returnAudio segmentProcessed : Bool)
    (st : RunState) (item : String × AudioPaths) : Option RunState :=
  let id := item.1
  let paths := item.2
  let start : Src × Option ℚ × RunState :=
    if saveOriginal then
      let f := download paths.originalIn paths.originalOutDir
      (Src.file f, none, { st with savedOriginals := st.savedOriginals ++ [f] })
    else
      let bs := loadAudio paths.originalIn
      (Src.buf bs.1, some bs.2, st)
  let y0 := start.1
  let sr0 := start.2.1
  let st1 := start.2.2
  let segStep : Option (Src × Option ℚ × Bool) :=
    if segmentProcessed then
      if isAvail paths.segmentIn then
        match segment_audio rt ld y0 sr0 (Seg.path paths.segmentIn) with
        | none => none
        | some ys => some (Src.buf ys.1, ys.2, true)
      else some (y0, sr0, false)
    else
      match segment_audio rt ld y0 sr0 Seg.nil with
      | none => none
      | some ys => some (Src.buf ys.1, ys.2, true)
  match segStep with
  | none => none
  | some (y1, sr1, processedAvailable) =>
    let yp : Src × Option ℚ :=
      if processedAvailable then
        match processFunc, y1 with
        | some f, Src.buf b => let r := f b sr1; (Src.buf r.1, r.2)
        | _, _ => (y1, sr1)
      else (y1, sr1)
    let st2 :=
      if processedAvailable && saveProcessed then
        { st1 with savedProcessed := st1.savedProcessed ++ [paths.processedOut] }
      else st1
    some (if returnAudio then
            { st2 with returned := st2.returned ++ [(id, yp.1, yp.2)] }
          else st2)

/-- `MisoSoundLoader.get_audio` from the source, over the path bundles that
`get_paths` resolved (one `(id, paths)` entry per identifier). -/
def get_audio (download : String → String → String)
    (loadAudio : String → List ℚ × ℚ) (isAvail : String → Bool)
    (rt : String → List ℚ) (ld : LoadFn)
    (processFunc : Option (List ℚ → Option ℚ → List ℚ × Option ℚ))
    (saveOriginal saveProcessed returnAudio segmentProcessed : Bool)
    (items : List (String × AudioPaths)) : Option RunState :=
  items.foldlM
    (fun st it =>
      get_audio_item download loadAudio isAvail rt ld processFunc
        saveOriginal saveProcessed returnAudio segmentProcessed st it)
    ⟨[], [], []⟩

/-! Helper lemmas (shared; not tied to a single claim). -/

/-- An integer already in the int16 range is unchanged by the int16 cast. -/
theorem toInt16_eq_self {n : ℤ} (h1 : -32768 ≤ n) (h2 : n < 32768) :
    toInt16 n = n := by
  rw [toInt16, Int.emod_eq_of_lt (by omega) (by omega)]
  omega

/-- For a sample in `[-1, 1)`, the truncated scaled value fits in int16. -/
theorem pyInt_scale_bounds {x : ℚ} (h1 : -1 ≤ x) (h2 : x < 1) :
    -32768 ≤ pyInt (x * 32768) ∧ pyInt (x * 32768) < 32768 := by
  rw [pyInt]
  split
  · refine ⟨le_trans (by norm_num) (Int.floor_nonneg.mpr (by assumption)), ?_⟩
    refine Int.floor_lt.mpr ?_
    push_cast
    nlinarith
  · rename_i hn
    have hle : x * 32768 ≤ 0 := le_of_lt (not_le.mp hn)
    constructor
    · calc (-32768:ℤ) = ⌈((-32768:ℤ):ℚ)⌉ := (Int.ceil_intCast (-32768)).symm
        _ ≤ ⌈x * 32768⌉ := Int.ceil_le_ceil (by push_cast; nlinarith)
    · refine lt_of_le_of_lt (Int.ceil_le.mpr ?_) (by norm_num : (0:ℤ) < 32768)
      push_cast
      exact hle

/-! Claim theorems. -/

/-- C1: for a buffer source at 44100 Hz with the explicit boundary (2.0, 5.0),
`segment_audio` slices `y[int(rint(44100*2.0)) : int(rint(44100*(3.0-2.0)))]`
= `y[88200:44100]`, which is EMPTY for every buffer (in particular for a
10-second, 441000-sample buffer), not the intended 132300-sample 3.0-second
span: the end index is computed from `duration - offset` and lands before
the start index. -/
theorem C1_segment_pair_2_5_empty (rt : String → List ℚ) (ld : LoadFn)
    (y : List ℚ) :
    segment_audio rt ld (Src.buf y) (some 44100) (Seg.pair 2 5)
      = some ([], some 44100) := by
  have h1 : npRint ((44100:ℚ) * 2) = 88200 := by norm_num [npRint]
  have h2 : npRint ((44100:ℚ) * (5 - 2 - 2)) = 44100 := by norm_num [npRint]
  have ht1 : (88200:ℤ).toNat = 88200 := rfl
  have ht2 : (44100:ℤ).toNat = 44100 := rfl
  simp only [segment_audio, h1, h2, pySlice, pyNormIdx]
  norm_num [ht1, ht2]

/-- C2: `apply_fade` with edge `"in"` multiplies the fade window by the
DESCENDING ramp `np.linspace(1.0, 0.0, length)` (the same curve as the
fade-out), so on the buffer `[1,1,1,1]` at rate 2 with duration 1 the first
sample keeps full amplitude and the last sample of the window is zeroed:
the result is `[1, 0, 1, 1]`, not the claimed ascending 0→1 ramp with the
first sample scaled to ~0. -/
theorem C2_fade_in_descending_ramp :
    apply_fade [1, 1, 1, 1] 2 1 "in" = some [1, 0, 1, 1] := by
  have h1 : fade_length 1 2 = 2 := by norm_num [fade_length, pyInt]
  have ht : (2:ℤ).toNat = 2 := rfl
  norm_num +decide [apply_fade, h1, fade_step, linspace, pySlice, pySetSlice,
    pyNormIdx, List.foldlM, List.range_succ, ht]

/-- C3: `match_target_amplitude_pydub` has no special case for all-silence
buffers: the loudness is negative infinity, the gain delta
`level - dBFS = +inf`, and applying that gain multiplies each zero sample by
infinity, i.e. `0 * inf = NaN` — the computation is undefined (`none`) for
every log/power routine and every target level, instead of returning the
input unchanged as the claim demands. -/
theorem C3_silence_normalize_nan (lg pw : ℚ → ℚ) (sr level : ℚ) :
    match_target_amplitude_pydub lg pw [0, 0] sr level = none := by
  norm_num +decide [match_target_amplitude_pydub, librosa_to_pydub,
    pydub_to_librosa, audioop_rms, pydub_dBFS, db_to_float, apply_gain,
    mul_sample, XQ.sub, toInt16, pyInt, List.mapM_cons, List.mapM_nil]

/-- C4 counterexample: the fade length is `int(duration * sr)`, truncation,
not rounding to nearest: at `duration = 1/10`, `sr = 19` the product is
`1.9`, the source computes length 1 (so `apply_fade` leaves `[1,1,1]`
unchanged — a length-1 descending ramp is just `[1.0]`), while
round-to-nearest gives 2. -/
theorem C4_fade_length_not_round :
    apply_fade [1, 1, 1] 19 (1/10) "in" = some [1, 1, 1]
      ∧ fade_length (1/10) 19 = 1
      ∧ round ((1:ℚ)/10 * 19) = 2 := by
  refine ⟨?_, by norm_num [fade_length, pyInt], by norm_num [round_eq]⟩
  have h1 : fade_length (1/10) 19 = 1 := by norm_num [fade_length, pyInt]
  have ht : (1:ℤ).toNat = 1 := rfl
  norm_num +decide [apply_fade, h1, fade_step, linspace, pySlice, pySetSlice,
    pyNormIdx, List.foldlM, List.range_succ, ht]

/-- C4 (amended): `apply_fade` computes the fade length in samples as
`int(duration_seconds * sampling_rate)`, i.e. truncation toward zero, which
for a non-negative product is the floor, not round-to-nearest. -/
theorem C4_fade_length_trunc (d sr : ℚ) (h : 0 ≤ d * sr) :
    fade_length d sr = ⌊d * sr⌋ := by
  rw [fade_length, pyInt, if_pos h]

/-- C4 witness for the amended theorem at `duration = 1/100`,
`sr = 44100`. -/
theorem C4_fade_length_trunc_witness :
    0 ≤ (1:ℚ)/100 * 44100
      ∧ fade_length (1/100) 44100 = ⌊(1:ℚ)/100 * 44100⌋ :=
  ⟨by norm_num, C4_fade_length_trunc (1/100) 44100 (by norm_num)⟩

/-- C5: `process_audio` resamples only when `sr != target_sr`, then
normalizes (with the source's default `ffmpeg_normalize` method), then
applies the fade with edge `"both"` — and both the fade and the returned
sampling rate use the post-resample rate, which is `target_sr` exactly when
resampling occurred. -/
theorem C5_pipeline_order (resampleFn ffmpegFn : List ℚ → ℚ → ℚ → List ℚ)
    (lg pw : ℚ → ℚ) (y : List ℚ) (sr target_sr : ℚ)
    (norm_level : Option ℚ) (fade_duration : ℚ) :
    process_audio resampleFn ffmpegFn lg pw y sr target_sr norm_level
        fade_duration =
      (normalize ffmpegFn lg pw
          (if sr = target_sr then y else resampleFn y sr target_sr)
          (if sr = target_sr then sr else target_sr)
          norm_level (some "ffmpeg_normalize")).bind
        (fun yn =>
          (apply_fade yn (if sr = target_sr then sr else target_sr)
              fade_duration "both").map
            (fun yf => (yf, if sr = target_sr then sr else target_sr))) := by
  by_cases h : sr = target_sr <;> simp [process_audio, h]

/-- C6: a `get_audio` run with segmenting enabled over two identifiers, the
first with an available boundary table (with at least two columns in its
first row) and the second without, saves both originals but processes and
saves exactly one output: the missing boundary skips processing without
aborting the run. -/
theorem C6_orchestrator_counts (download : String → String → String)
    (loadAudio : String → List ℚ × ℚ) (isAvail : String → Bool)
    (rt : String → List ℚ) (ld : LoadFn)
    (processFunc : Option (List ℚ → Option ℚ → List ℚ × Option ℚ))
    (id1 id2 : String) (p1 p2 : AudioPaths) (a b : ℚ)
    (h1 : isAvail p1.segmentIn = true)
    (h2 : isAvail p2.segmentIn = false)
    (h3 : (rt p1.segmentIn).take 2 = [a, b]) :
    (get_audio download loadAudio isAvail rt ld processFunc true true true
        true [(id1, p1), (id2, p2)]).map
      (fun r => (r.savedOriginals.length, r.savedProcessed.length))
      = some (2, 1) := by
  simp [get_audio, get_audio_item, segment_audio, h1, h2, h3, List.foldlM]

/-- C6 witness: a concrete two-item run (boundary available only for the
first item) saving two originals and one processed file. -/
theorem C6_orchestrator_counts_witness :
    (get_audio (fun i _ => i) (fun _ => ([], 44100))
        (fun s => s == "seg1") (fun _ => [(2:ℚ), 5])
        (fun _ _ _ _ => ([0], 44100)) none true true true true
        [("a", ⟨"u1", "d1", "seg1", "o1"⟩), ("b", ⟨"u2", "d2", "seg2", "o2"⟩)]).map
      (fun r => (r.savedOriginals.length, r.savedProcessed.length))
      = some (2, 1) :=
  C6_orchestrator_counts (fun i _ => i) (fun _ => ([], 44100))
    (fun s => s == "seg1") (fun _ => [(2:ℚ), 5])
    (fun _ _ _ _ => ([0], 44100)) none "a" "b"
    ⟨"u1", "d1", "seg1", "o1"⟩ ⟨"u2", "d2", "seg2", "o2"⟩ 2 5
    rfl rfl rfl

/-- C7: segmenting a buffer through a boundary-table path whose first data
row starts with the columns (2.0, 5.0) gives exactly the same result as
passing the explicit pair (2.0, 5.0). -/
theorem C7_table_path_equals_pair (rt : String → List ℚ) (ld : LoadFn)
    (y : List ℚ) (sr : Option ℚ) (p : String)
    (h : (rt p).take 2 = [2, 5]) :
    segment_audio rt ld (Src.buf y) sr (Seg.path p)
      = segment_audio rt ld (Src.buf y) sr (Seg.pair 2 5) := by
  simp only [segment_audio, h]

/-- C7 witness: a concrete table whose first row is `[2, 5, 9]`. -/
theorem C7_table_path_equals_pair_witness :
    segment_audio (fun _ => [(2:ℚ), 5, 9]) (fun _ _ _ _ => ([], 0))
        (Src.buf [1, 2, 3]) (some 1) (Seg.path "t")
      = segment_audio (fun _ => [(2:ℚ), 5, 9]) (fun _ _ _ _ => ([], 0))
        (Src.buf [1, 2, 3]) (some 1) (Seg.pair 2 5) :=
  C7_table_path_equals_pair (fun _ => [(2:ℚ), 5, 9]) (fun _ _ _ _ => ([], 0))
    [1, 2, 3] (some 1) "t" rfl

/-- C8: `apply_fade` with a non-positive duration returns the input buffer
unchanged, for every buffer, sampling rate and edge selector. -/
theorem C8_fade_nonpos_identity (y : List ℚ) (sr duration : ℚ) (e : String)
    (h : duration ≤ 0) :
    apply_fade y sr duration e = some y := by
  rw [apply_fade, if_neg (not_lt.mpr h)]

/-- C8 witness at duration 0 on a concrete buffer. -/
theorem C8_fade_nonpos_identity_witness :
    apply_fade [1, 2] 44100 0 "both" = some [1, 2] :=
  C8_fade_nonpos_identity [1, 2] 44100 0 "both" le_rfl

/-- C9: `normalize` with `level = None` returns the input buffer unchanged,
whatever the method (strategy) and collaborators are. -/
theorem C9_normalize_none_identity (ffmpegFn : List ℚ → ℚ → ℚ → List ℚ)
    (lg pw : ℚ → ℚ) (y : List ℚ) (sr : ℚ) (method : Option String) :
    normalize ffmpegFn lg pw y sr none method = some y := by
  cases method <;> rfl

/-- C10: the pydub round-trip preserves the sampling rate and maps each
float sample `x` in `[-1, 1)` to `trunc(x * 32768) / 32767`; in particular
`1/32768` maps to `1/32767`, which differs from it, so the round-trip is
not the identity on samples. -/
theorem C10_roundtrip_rescale (y : List ℚ) (sr : ℚ)
    (h : ∀ x ∈ y, -1 ≤ x ∧ x < 1) :
    pydub_to_librosa (librosa_to_pydub y sr)
        = (y.map (fun x => ((pyInt (x * 32768) : ℤ) : ℚ) / 32767), sr)
      ∧ pydub_to_librosa (librosa_to_pydub [(1/32768 : ℚ)] sr)
        = ([1/32767], sr)
      ∧ ((1:ℚ)/32767) ≠ 1/32768 := by
  refine ⟨?_, ?_, by norm_num⟩
  · rw [pydub_to_librosa, librosa_to_pydub]
    dsimp only
    rw [List.map_map]
    refine congrArg (fun l => (l, sr)) ?_
    refine List.map_congr_left ?_
    intro x hx
    have hb := pyInt_scale_bounds (h x hx).1 (h x hx).2
    simp only [Function.comp_apply]
    rw [toInt16_eq_self hb.1 hb.2]
  · rw [pydub_to_librosa, librosa_to_pydub]
    have h1 : pyInt ((1/32768 : ℚ) * 32768) = 1 := by norm_num [pyInt]
    simp only [List.map_cons, List.map_nil, h1]
    norm_num [toInt16]

/-- C10 witness on the concrete buffer `[1/32768, -1/2]` at 44100 Hz. -/
theorem C10_roundtrip_rescale_witness :
    pydub_to_librosa (librosa_to_pydub [(1/32768 : ℚ), -1/2] 44100)
        = ([(1/32768 : ℚ), -1/2].map
            (fun x => ((pyInt (x * 32768) : ℤ) : ℚ) / 32767), 44100)
      ∧ pydub_to_librosa (librosa_to_pydub [(1/32768 : ℚ)] 44100)
        = ([1/32767], 44100)
      ∧ ((1:ℚ)/32767) ≠ 1/32768 :=
  C10_roundtrip_rescale [(1/32768 : ℚ), -1/2] 44100
    (by intro x hx; fin_cases hx <;> norm_num)

end MisoSoundBank
